import Mathlib

/-!
Verification of the `killport` utility against its specification.

The repository ships `src/main.rs` (CLI driver) which dispatches to a
platform-specific `kill_processes_by_port(port, dry_run)` implemented in
`linux.rs` / `macos.rs`; those platform modules are not present under the
sources we were given, so the core resolution-and-kill pipeline is modelled
from the specification (Socket Table Reader, Correlator, Process Filter,
Termination Engine), and the driver is embedded from `main.rs`.
-/

namespace Killport

/-- The `KillResult` enum from `main.rs`: outcome of the kill operation
for one port. -/
inductive KillResult where
  | Killed
  | NotKilled
  | DryRun
  deriving DecidableEq, Repr

/-- Protocol family of a socket table entry (TCP/UDP, v4/v6), per the
spec's SocketRecord data model. -/
inductive Proto where
  | Tcp
  | Tcp6
  | Udp
  | Udp6
  deriving DecidableEq, Repr

/-- Modelled from the spec: a `SocketRecord` is one kernel socket entry —
protocol, local port, and an opaque socket identifier (inode number). -/
structure SocketRecord where
  proto : Proto
  local_port : Nat
  sock_id : Nat
  deriving DecidableEq, Repr

/-- The kind of signal the Termination Engine delivers: the graceful
"please exit" signal or the forceful, uninterceptable kill signal. -/
inductive Sig where
  | graceful
  | forceful
  deriving DecidableEq, Repr

/-- A signal actually delivered to a process: the observable side effect
of the Termination Engine. -/
structure Event where
  pid : Nat
  sig : Sig
  deriving DecidableEq, Repr

/-- Modelled from the spec: the kernel-exposed state one resolution pass
reads, plus the per-process facts that determine signalling behaviour.
`owners` maps socket identifiers to owning PIDs (the Correlator's data
source); `own_pid` is the PID of the running killport process itself;
`can_signal` lists the PIDs this user has permission to signal;
`graceful_exiters` lists the PIDs that exit within the grace period after
the graceful signal. -/
structure System where
  sockets : List SocketRecord
  owners : List (Nat × Nat)
  own_pid : Nat
  can_signal : List Nat
  graceful_exiters : List Nat
  deriving Repr

/-- Modelled from the spec: the Correlator resolves a socket identifier to
zero or one owning process ID. -/
def lookup_owner (owners : List (Nat × Nat)) (sock : Nat) : Option Nat :=
  (owners.find? (fun p => p.1 == sock)).map (fun p => p.2)

/-- Modelled from the spec: the Socket Table Reader produces the socket
records whose local port equals the target port. -/
def socket_table (s : System) (port : Nat) : List SocketRecord :=
  s.sockets.filter (fun r => r.local_port == port)

/-- Modelled from the spec: Socket Table Reader → Correlator → Process
Filter. The correlated owner PIDs for the port, with the calling
process's own PID removed and duplicates collapsed (a process owning
several sockets on the port is counted once). -/
def candidates (s : System) (port : Nat) : List Nat :=
  (((socket_table s port).filterMap
      (fun r => lookup_owner s.owners r.sock_id)).filter
      (fun pid => pid != s.own_pid)).dedup

/-- Modelled from the spec: the escalating-termination protocol for one
candidate. Returns the signals delivered and whether the candidate
reached the `Exited` terminal state. A candidate we lack permission to
signal receives nothing and is `Unresolved` (failure); a candidate that
exits within the grace period receives only the graceful signal; a
candidate still alive after the grace period also receives the forceful
signal. -/
def kill_candidate (s : System) (pid : Nat) : List Event × Bool :=
  if s.can_signal.contains pid then
    if s.graceful_exiters.contains pid then
      ([⟨pid, Sig.graceful⟩], true)
    else
      ([⟨pid, Sig.graceful⟩, ⟨pid, Sig.forceful⟩], true)
  else
    ([], false)

/-- Modelled from the spec: the Termination Engine applied to each
candidate in order. Returns all delivered signals, the successfully
terminated PIDs, and the PIDs whose termination failed
(PerCandidateSignalError). -/
def kill_all (s : System) : List Nat → List Event × List Nat × List Nat
  | [] => ([], [], [])
  | p :: rest =>
    let r := kill_candidate s p
    let t := kill_all s rest
    (r.1 ++ t.1,
     if r.2 then p :: t.2.1 else t.2.1,
     if r.2 then t.2.2 else p :: t.2.2)

/-- The aggregate result of one `ResolveAndKill` pass: the outcome tag,
the signals delivered, the failed candidates surfaced to the caller, and
the system state afterwards. -/
structure KillReport where
  outcome : KillResult
  events : List Event
  failures : List Nat
  after : System

/-- Modelled from the spec: a successfully terminated process no longer
owns any socket; its entries disappear from the ownership table. -/
def remove_pids (s : System) (killed : List Nat) : System :=
  { s with owners := s.owners.filter (fun p => !(killed.contains p.2)) }

/-- Modelled from the spec: `ResolveAndKill(port, dry_run)`, the contract
of `kill_processes_by_port`. Empty candidate set → `NotKilled`, no
signals. Non-empty set with `dry_run` → `DryRun`, no signals. Otherwise
the Termination Engine runs; `Killed` iff at least one candidate was
terminated, else `NotKilled` with the failures surfaced. -/
def resolve_and_kill (s : System) (port : Nat) (dry_run : Bool) : KillReport :=
  let cs := candidates s port
  if cs.isEmpty then
    ⟨KillResult.NotKilled, [], [], s⟩
  else if dry_run then
    ⟨KillResult.DryRun, [], [], s⟩
  else
    let t := kill_all s cs
    ⟨if t.2.1.isEmpty then KillResult.NotKilled else KillResult.Killed,
     t.1, t.2.2, remove_pids s t.2.1⟩

/-! Embedding of the `main.rs` driver. -/

/-- Log levels of the `log` crate (used by `main.rs` via
`clap_verbosity_flag`). -/
inductive Level where
  | Error
  | Warn
  | Info
  | Debug
  | Trace
  deriving DecidableEq, Repr

/-- Log level filters of the `log` crate; `Off` disables logging. -/
inductive LevelFilter where
  | Off
  | Error
  | Warn
  | Info
  | Debug
  | Trace
  deriving DecidableEq, Repr

/-- `log::Level::to_level_filter`: each level maps to the filter of the
same name. -/
def Level.to_level_filter : Level → LevelFilter
  | Level.Error => LevelFilter.Error
  | Level.Warn => LevelFilter.Warn
  | Level.Info => LevelFilter.Info
  | Level.Debug => LevelFilter.Debug
  | Level.Trace => LevelFilter.Trace

/-- The documented behaviour of `clap_verbosity_flag::Verbosity<WarnLevel>`
used by `KillPortArgs`: the default level is `Warn`; each `-v` raises and
each `-q` lowers the level on the scale
Off < Error < Warn < Info < Debug < Trace, and `log_level()` returns
`None` when the result is `Off`. -/
def verbosity_log_level (verbose quiet : Nat) : Option Level :=
  let v : Int := 2 + (verbose : Int) - (quiet : Int)
  if v ≤ 0 then none
  else if v = 1 then some Level.Error
  else if v = 2 then some Level.Warn
  else if v = 3 then some Level.Info
  else if v = 4 then some Level.Debug
  else some Level.Trace

/-- The log-level computation of `main`: the verbosity-selected level is
mapped to a filter and unwrapped (`none` models the `unwrap` panic, in
which case no filter is ever installed), and then, if `dry_run` is set,
the filter is replaced by `Info`. -/
def main_log_level (verbosity_level : Option Level) (dry_run : Bool) :
    Option LevelFilter :=
  match verbosity_level.map Level.to_level_filter with
  | none => none
  | some lf => some (if dry_run then LevelFilter.Info else lf)

/-- The outcome line `main` prints for one port, selected by the
`KillResult` tag. -/
def port_line (port : Nat) (r : KillResult) : String :=
  match r with
  | KillResult.Killed =>
    "Successfully killed process listening on port " ++ toString port
  | KillResult.NotKilled =>
    "No processes found using port " ++ toString port
  | KillResult.DryRun =>
    "This is a dry-run, no processes were killed."

/-- Observable output of the driver loop: lines printed to standard
output, lines printed to the error stream, and the process exit code. -/
structure DriverOutput where
  out_lines : List String
  err_lines : List String
  exit_code : Nat
  deriving DecidableEq, Repr

/-- The port loop of `main`: for each port in order, call
`kill_processes_by_port` (abstracted as `k`); on `Ok`, print the outcome
line and continue; on `Err`, log the error to the error stream and
`exit(1)` without touching the remaining ports. -/
def run_ports (k : Nat → Except String KillResult) :
    List Nat → DriverOutput
  | [] => ⟨[], [], 0⟩
  | p :: rest =>
    match k p with
    | Except.ok r =>
      let d := run_ports k rest
      ⟨port_line p r :: d.out_lines, d.err_lines, d.exit_code⟩
    | Except.error e => ⟨[], [e], 1⟩

end Killport

namespace Killport

/- Helper lemmas about the model. -/

/-- Every event emitted while killing one candidate carries that
candidate's PID. -/
theorem kill_candidate_event_pid (s : System) (pid : Nat) (e : Event)
    (he : e ∈ (kill_candidate s pid).1) : e.pid = pid := by
  unfold kill_candidate at he
  by_cases h1 : pid ∈ s.can_signal
  · by_cases h2 : pid ∈ s.graceful_exiters
    · simp [h1, h2] at he
      subst he; rfl
    · simp [h1, h2] at he
      rcases he with he | he <;> (subst he; rfl)
  · simp [h1] at he

/-- The forceful signal is delivered to a candidate exactly when it is
signalable and does not exit within the grace period. -/
theorem kill_candidate_forceful (s : System) (pid : Nat) :
    (⟨pid, Sig.forceful⟩ : Event) ∈ (kill_candidate s pid).1 ↔
      (s.can_signal.contains pid = true ∧
       s.graceful_exiters.contains pid = false) := by
  unfold kill_candidate
  by_cases h1 : pid ∈ s.can_signal
  · by_cases h2 : pid ∈ s.graceful_exiters
    · simp [h1, h2]
    · simp [h1, h2]
  · simp [h1]

/-- Membership of an event in the Termination Engine's trace reduces to
membership in the event list of the candidate with the event's PID. -/
theorem kill_all_mem_events (s : System) (pids : List Nat) (e : Event) :
    e ∈ (kill_all s pids).1 ↔
      ∃ p ∈ pids, e ∈ (kill_candidate s p).1 := by
  induction pids with
  | nil => simp [kill_all]
  | cons p rest ih =>
    simp only [kill_all, List.mem_append, List.mem_cons, ih]
    constructor
    · rintro (h | ⟨q, hq, hqe⟩)
      · exact ⟨p, Or.inl rfl, h⟩
      · exact ⟨q, Or.inr hq, hqe⟩
    · rintro ⟨q, hq | hq, hqe⟩
      · subst hq; exact Or.inl hqe
      · exact Or.inr ⟨q, hq, hqe⟩

/-- The successfully terminated PIDs are exactly the signalable ones. -/
theorem kill_all_killed (s : System) (pids : List Nat) :
    (kill_all s pids).2.1 = pids.filter (fun p => s.can_signal.contains p) := by
  induction pids with
  | nil => simp [kill_all]
  | cons p rest ih =>
    by_cases h1 : p ∈ s.can_signal
    · by_cases h2 : p ∈ s.graceful_exiters
      · simp [kill_all, kill_candidate, h1, h2, ih, List.filter_cons]
      · simp [kill_all, kill_candidate, h1, h2, ih, List.filter_cons]
    · simp [kill_all, kill_candidate, h1, ih, List.filter_cons]

/-- The failed PIDs are exactly the non-signalable ones. -/
theorem kill_all_failures (s : System) (pids : List Nat) :
    (kill_all s pids).2.2 = pids.filter (fun p => !(s.can_signal.contains p)) := by
  induction pids with
  | nil => simp [kill_all]
  | cons p rest ih =>
    by_cases h1 : p ∈ s.can_signal
    · by_cases h2 : p ∈ s.graceful_exiters
      · simp [kill_all, kill_candidate, h1, h2, ih, List.filter_cons]
      · simp [kill_all, kill_candidate, h1, h2, ih, List.filter_cons]
    · simp [kill_all, kill_candidate, h1, ih, List.filter_cons]

/-- When the candidate set is non-empty and `dry_run` is off, one
`ResolveAndKill` pass is the Termination Engine run over the candidates. -/
theorem resolve_and_kill_run (s : System) (port : Nat)
    (h : candidates s port ≠ []) :
    resolve_and_kill s port false =
      ⟨if ((kill_all s (candidates s port)).2.1).isEmpty then KillResult.NotKilled
         else KillResult.Killed,
       (kill_all s (candidates s port)).1,
       (kill_all s (candidates s port)).2.2,
       remove_pids s (kill_all s (candidates s port)).2.1⟩ := by
  unfold resolve_and_kill
  rcases hc : candidates s port with _ | ⟨a, t⟩
  · exact absurd hc h
  · simp only [hc, List.isEmpty_cons, Bool.false_eq_true, if_false]

/- Example systems used to instantiate the theorems below. -/

/-- A system with one process (PID 100) listening on port 8080 through
both an IPv4 and an IPv6 socket; the process is signalable and exits
within the grace period. PID 1 is the running killport process. -/
def sys8080 : System :=
  ⟨[⟨Proto.Tcp, 8080, 41⟩, ⟨Proto.Tcp6, 8080, 42⟩],
   [(41, 100), (42, 100)], 1, [100], [100]⟩

/-- A system with one signalable process (PID 100) on port 8080 that does
not exit within the grace period. -/
def sys_stubborn : System :=
  ⟨[⟨Proto.Tcp, 8080, 41⟩], [(41, 100)], 1, [100], []⟩

/-- A system with one process (PID 200) on port 443 that the caller has
no permission to signal. -/
def sys_noperm : System :=
  ⟨[⟨Proto.Tcp, 443, 51⟩], [(51, 200)], 1, [], []⟩

/-- A system with no sockets at all. -/
def sys_empty : System := ⟨[], [], 1, [], []⟩

/- Claim theorems. -/

/-- C1: for every port, a run with `dry_run` requested returns `DryRun`
iff at least one candidate existed; and whenever `DryRun` is returned (for
any `dry_run` flag), no termination signal is delivered to any process. -/
theorem dry_run_iff_candidates_and_no_signals (s : System) (port : Nat) :
    ((resolve_and_kill s port true).outcome = KillResult.DryRun ↔
      candidates s port ≠ []) ∧
    (∀ dry : Bool, (resolve_and_kill s port dry).outcome = KillResult.DryRun →
      (resolve_and_kill s port dry).events = []) := by
  constructor
  · by_cases h : candidates s port = []
    · simp [resolve_and_kill, h]
    · rcases hc : candidates s port with _ | ⟨a, t⟩
      · exact absurd hc h
      · simp [resolve_and_kill, hc]
  · intro dry hres
    by_cases h : candidates s port = []
    · simp [resolve_and_kill, h]
    · cases dry with
      | false =>
        rw [resolve_and_kill_run s port h] at hres
        by_cases hk : ((kill_all s (candidates s port)).2.1).isEmpty = true
        · simp [hk] at hres
        · simp [hk] at hres
      | true =>
        rcases hc : candidates s port with _ | ⟨a, t⟩
        · exact absurd hc h
        · simp [resolve_and_kill, hc]

/-- C1 witness: on a port with a bound process, the dry run returns
`DryRun` and delivers no signal. -/
theorem dry_run_iff_candidates_and_no_signals_witness :
    (resolve_and_kill sys8080 8080 true).outcome = KillResult.DryRun ∧
    (resolve_and_kill sys8080 8080 true).events = [] :=
  ⟨(dry_run_iff_candidates_and_no_signals sys8080 8080).1.mpr (by decide),
   (dry_run_iff_candidates_and_no_signals sys8080 8080).2 true
     ((dry_run_iff_candidates_and_no_signals sys8080 8080).1.mpr (by decide))⟩

/-- C3: the running killport process's own PID is never a member of the
candidate set for any queried port. -/
theorem own_pid_never_candidate (s : System) (port : Nat) :
    s.own_pid ∉ candidates s port := by
  intro h
  unfold candidates at h
  rw [List.mem_dedup, List.mem_filter] at h
  simp at h

/-- C3 witness: the own PID is excluded on a concrete system where it
holds a socket on the queried port. -/
theorem own_pid_never_candidate_witness :
    (⟨[⟨Proto.Tcp, 7000, 61⟩], [(61, 1)], 1, [1], [1]⟩ : System).own_pid ∉
      candidates ⟨[⟨Proto.Tcp, 7000, 61⟩], [(61, 1)], 1, [1], [1]⟩ 7000 :=
  own_pid_never_candidate _ 7000

/-- C4: the candidate set for a port contains no duplicate PIDs: a
process owning several sockets on the port appears exactly once. -/
theorem candidates_nodup (s : System) (port : Nat) :
    (candidates s port).Nodup :=
  List.nodup_dedup _

/-- C4 witness: PID 100 listening on port 8080 through both TCP and TCP6
appears exactly once in the candidate set. -/
theorem candidates_nodup_witness :
    candidates sys8080 8080 = [100] ∧ (candidates sys8080 8080).Nodup :=
  ⟨by decide, candidates_nodup sys8080 8080⟩

/-- C5: on a port with no candidates, the operation returns `NotKilled`
and delivers no signal, for any value of the `dry_run` flag. -/
theorem empty_candidates_not_killed (s : System) (port : Nat) (dry : Bool)
    (h : candidates s port = []) :
    (resolve_and_kill s port dry).outcome = KillResult.NotKilled ∧
    (resolve_and_kill s port dry).events = [] := by
  simp [resolve_and_kill, h]

/-- C5 witness: a port with no listeners yields `NotKilled` and zero
signals. -/
theorem empty_candidates_not_killed_witness :
    (resolve_and_kill sys_empty 9999 false).outcome = KillResult.NotKilled ∧
    (resolve_and_kill sys_empty 9999 false).events = [] :=
  empty_candidates_not_killed sys_empty 9999 false (by decide)

/-- C10: whenever `dry_run` is set and the verbosity flags selected some
level (so the `unwrap` succeeds and a filter is installed at all), the
installed logging filter is exactly `Info`, whatever the verbosity
selected. -/
theorem dry_run_forces_info_filter (verbose quiet : Nat)
    (h : (verbosity_log_level verbose quiet).isSome = true) :
    main_log_level (verbosity_log_level verbose quiet) true =
      some LevelFilter.Info := by
  rcases ho : verbosity_log_level verbose quiet with _ | lv
  · rw [ho] at h
    simp at h
  · simp [main_log_level]

/-- C10 witness: three `-v` flags select `Trace`, yet with `dry_run` the
installed filter is `Info`. -/
theorem dry_run_forces_info_filter_witness :
    verbosity_log_level 3 0 = some Level.Trace ∧
    main_log_level (verbosity_log_level 3 0) true = some LevelFilter.Info :=
  ⟨by decide, dry_run_forces_info_filter 3 0 (by decide)⟩

/-- C2: escalation law. A signalable candidate that exits within the
grace period after the graceful signal never receives the forceful
signal; one still alive after the grace period always receives it. -/
theorem escalation_law (s : System) (port pid : Nat)
    (hmem : pid ∈ candidates s port)
    (hsig : s.can_signal.contains pid = true) :
    (s.graceful_exiters.contains pid = true →
      (⟨pid, Sig.forceful⟩ : Event) ∉ (resolve_and_kill s port false).events) ∧
    (s.graceful_exiters.contains pid = false →
      (⟨pid, Sig.forceful⟩ : Event) ∈ (resolve_and_kill s port false).events) := by
  have hne : candidates s port ≠ [] := List.ne_nil_of_mem hmem
  rw [resolve_and_kill_run s port hne]
  constructor
  · intro hg hcontra
    rw [kill_all_mem_events] at hcontra
    obtain ⟨q, hq, hqe⟩ := hcontra
    have hpq : (⟨pid, Sig.forceful⟩ : Event).pid = q :=
      kill_candidate_event_pid s q _ hqe
    simp only at hpq
    subst hpq
    rw [kill_candidate_forceful] at hqe
    rw [hqe.2] at hg
    exact Bool.false_ne_true hg
  · intro hg
    rw [kill_all_mem_events]
    exact ⟨pid, hmem, (kill_candidate_forceful s pid).mpr ⟨hsig, hg⟩⟩

/-- C2 witness: the graceful exiter on port 8080 receives no forceful
signal; the stubborn process does. -/
theorem escalation_law_witness :
    ((⟨100, Sig.forceful⟩ : Event) ∉ (resolve_and_kill sys8080 8080 false).events) ∧
    ((⟨100, Sig.forceful⟩ : Event) ∈ (resolve_and_kill sys_stubborn 8080 false).events) :=
  ⟨(escalation_law sys8080 8080 100 (by decide) (by decide)).1 (by decide),
   (escalation_law sys_stubborn 8080 100 (by decide) (by decide)).2 (by decide)⟩

/-- C7: if a port had candidates but every termination attempt failed
(no permission on any candidate), the outcome is `NotKilled` and the
failure detail — the full non-empty list of failed PIDs — is surfaced to
the caller. -/
theorem all_failures_not_killed (s : System) (port : Nat)
    (hne : candidates s port ≠ [])
    (hfail : ∀ pid ∈ candidates s port, s.can_signal.contains pid = false) :
    (resolve_and_kill s port false).outcome = KillResult.NotKilled ∧
    (resolve_and_kill s port false).failures = candidates s port ∧
    (resolve_and_kill s port false).failures ≠ [] := by
  rw [resolve_and_kill_run s port hne]
  have hkilled : (kill_all s (candidates s port)).2.1 = [] := by
    rw [kill_all_killed]
    rw [List.filter_eq_nil_iff]
    intro p hp
    simpa using hfail p hp
  have hfl : (kill_all s (candidates s port)).2.2 = candidates s port := by
    rw [kill_all_failures]
    rw [List.filter_eq_self]
    intro p hp
    simpa using hfail p hp
  exact ⟨by simp [hkilled], by simp [hfl], by simp [hfl, hne]⟩

/-- C7 witness: one unprivileged candidate on port 443 yields `NotKilled`
with PID 200 surfaced as the failure. -/
theorem all_failures_not_killed_witness :
    (resolve_and_kill sys_noperm 443 false).outcome = KillResult.NotKilled ∧
    (resolve_and_kill sys_noperm 443 false).failures = candidates sys_noperm 443 ∧
    (resolve_and_kill sys_noperm 443 false).failures ≠ [] :=
  all_failures_not_killed sys_noperm 443 (by decide) (by decide)

/-- C8: when every port's operation succeeds, the driver prints exactly
one outcome line per port, selected by the outcome tag, in input order,
with nothing on the error stream and exit code zero. -/
theorem driver_one_line_per_port (k : Nat → Except String KillResult)
    (f : Nat → KillResult) (ports : List Nat)
    (hok : ∀ p ∈ ports, k p = Except.ok (f p)) :
    (run_ports k ports).out_lines = ports.map (fun p => port_line p (f p)) ∧
    (run_ports k ports).err_lines = [] ∧
    (run_ports k ports).exit_code = 0 := by
  induction ports with
  | nil => exact ⟨rfl, rfl, rfl⟩
  | cons p rest ih =>
    have hp := hok p (List.mem_cons_self p rest)
    have hrest := ih (fun q hq => hok q (List.mem_cons_of_mem p hq))
    simp [run_ports, hp, hrest.1, hrest.2.1, hrest.2.2]

/-- A concrete `kill_processes_by_port` used to instantiate the driver
theorems: port 80 is freed, port 81 fails with an error, every other
port has no process. -/
def k_demo : Nat → Except String KillResult := fun p =>
  if p = 80 then Except.ok KillResult.Killed
  else if p = 81 then Except.error "permission denied"
  else Except.ok KillResult.NotKilled

/-- C8 witness: two successful ports produce their two outcome lines in
order and a zero exit code. -/
theorem driver_one_line_per_port_witness :
    (run_ports k_demo [80, 443]).out_lines =
      [80, 443].map (fun p =>
        port_line p (if p = 80 then KillResult.Killed else KillResult.NotKilled)) ∧
    (run_ports k_demo [80, 443]).err_lines = [] ∧
    (run_ports k_demo [80, 443]).exit_code = 0 :=
  driver_one_line_per_port k_demo
    (fun p => if p = 80 then KillResult.Killed else KillResult.NotKilled)
    [80, 443]
    (by
      intro p hp
      simp only [List.mem_cons, List.not_mem_nil, or_false] at hp
      rcases hp with rfl | rfl <;> rfl)

/-- C6: if the operation errors on some port (all earlier ports having
succeeded), the driver prints that error to the error stream, exits with
status 1, and processes no subsequent port: the printed outcome lines are
exactly those of the earlier ports. -/
theorem driver_error_aborts (k : Nat → Except String KillResult)
    (pre : List Nat) (p : Nat) (post : List Nat) (e : String)
    (hok : ∀ q ∈ pre, ∃ r, k q = Except.ok r)
    (herr : k p = Except.error e) :
    (run_ports k (pre ++ p :: post)).err_lines = [e] ∧
    (run_ports k (pre ++ p :: post)).exit_code = 1 ∧
    (run_ports k (pre ++ p :: post)).out_lines = (run_ports k pre).out_lines := by
  induction pre with
  | nil =>
    simp [run_ports, herr]
  | cons q pre ih =>
    obtain ⟨r, hr⟩ := hok q (List.mem_cons_self q pre)
    have hrest := ih (fun x hx => hok x (List.mem_cons_of_mem q hx))
    simp [run_ports, hr, hrest.1, hrest.2.1, hrest.2.2]

/-- When each socket identifier has at most one ownership entry (the
Correlator resolves each socket to zero or one owner, as the spec
states), a lookup that succeeds on the table with the killed PIDs
removed also succeeds on the original table with the same owner, and
that owner is not one of the killed PIDs. -/
theorem lookup_owner_filter (owners : List (Nat × Nat)) (ks : List Nat)
    (sock pid : Nat)
    (hkeys : (owners.map Prod.fst).Nodup)
    (h : lookup_owner (owners.filter (fun p => !(ks.contains p.2))) sock =
      some pid) :
    lookup_owner owners sock = some pid ∧ ks.contains pid = false := by
  unfold lookup_owner at h ⊢
  rcases hf : (owners.filter (fun p => !(ks.contains p.2))).find?
      (fun p => p.1 == sock) with _ | q
  · rw [hf] at h
    simp at h
  · rw [hf] at h
    simp only [Option.map_some'] at h
    have hqmemf := List.mem_of_find?_eq_some hf
    have hqpred := List.find?_some hf
    rw [List.mem_filter] at hqmemf
    obtain ⟨hqmem, hqfil⟩ := hqmemf
    have hsome : (owners.find? (fun p => p.1 == sock)).isSome := by
      rw [List.find?_isSome]
      exact ⟨q, hqmem, hqpred⟩
    rcases hf2 : owners.find? (fun p => p.1 == sock) with _ | q'
    · rw [hf2] at hsome
      simp at hsome
    · have hq'mem := List.mem_of_find?_eq_some hf2
      have hq'pred := List.find?_some hf2
      have hqq : q = q' := by
        apply List.inj_on_of_nodup_map hkeys hqmem hq'mem
        have e1 : q.1 = sock := by simpa using hqpred
        have e2 : q'.1 = sock := by simpa using hq'pred
        simp [e1, e2]
      subst hqq
      have hpid : q.2 = pid := Option.some.inj h
      constructor
      · rw [hf2]
        simp [hpid]
      · rw [← hpid]
        simpa using hqfil

/-- A candidate found after the killed PIDs were removed was already a
candidate before, and is not one of the killed PIDs. -/
theorem candidates_remove_subset (s : System) (ks : List Nat) (port pid : Nat)
    (hkeys : (s.owners.map Prod.fst).Nodup)
    (h : pid ∈ candidates (remove_pids s ks) port) :
    pid ∈ candidates s port ∧ ks.contains pid = false := by
  unfold candidates at h ⊢
  rw [List.mem_dedup, List.mem_filter] at h
  obtain ⟨hmem, hown⟩ := h
  rw [List.mem_filterMap] at hmem
  obtain ⟨r, hr, hlook⟩ := hmem
  have hst : socket_table (remove_pids s ks) port = socket_table s port := rfl
  rw [hst] at hr
  have hlk := lookup_owner_filter s.owners ks r.sock_id pid hkeys hlook
  refine ⟨?_, hlk.2⟩
  rw [List.mem_dedup, List.mem_filter]
  exact ⟨List.mem_filterMap.mpr ⟨r, hr, hlk.1⟩, hown⟩

/-- C9: when the Correlator's socket-to-owner table is functional (each
socket identifier owned by at most one process, as the spec states), a
second invocation immediately after a `Killed` result for the same port
returns `NotKilled`: no matching process remains bound to the port. -/
theorem killed_then_not_killed (s : System) (port : Nat)
    (hkeys : (s.owners.map Prod.fst).Nodup)
    (h : (resolve_and_kill s port false).outcome = KillResult.Killed) :
    (resolve_and_kill (resolve_and_kill s port false).after port
        false).outcome = KillResult.NotKilled := by
  have hne : candidates s port ≠ [] := by
    intro hc
    rw [show resolve_and_kill s port false = ⟨KillResult.NotKilled, [], [], s⟩
      from by simp [resolve_and_kill, hc]] at h
    exact absurd h (by simp)
  rw [resolve_and_kill_run s port hne] at h ⊢
  by_cases h2 : candidates
      (remove_pids s (kill_all s (candidates s port)).2.1) port = []
  · simp only [resolve_and_kill, h2, List.isEmpty_nil, if_true]
  · rw [resolve_and_kill_run _ port h2]
    have hket : ∀ pid ∈ candidates
        (remove_pids s (kill_all s (candidates s port)).2.1) port,
        s.can_signal.contains pid = false := by
      intro pid hpid
      have hsub := candidates_remove_subset s
        (kill_all s (candidates s port)).2.1 port pid hkeys hpid
      by_contra hcs
      have hks : pid ∈ (kill_all s (candidates s port)).2.1 := by
        rw [kill_all_killed, List.mem_filter]
        refine ⟨hsub.1, ?_⟩
        simpa using hcs
      have : (kill_all s (candidates s port)).2.1.contains pid = true := by
        simpa using hks
      rw [hsub.2] at this
      exact Bool.false_ne_true this
    have hk2 : (kill_all (remove_pids s (kill_all s (candidates s port)).2.1)
        (candidates (remove_pids s (kill_all s (candidates s port)).2.1)
          port)).2.1 = [] := by
      rw [kill_all_killed, List.filter_eq_nil_iff]
      intro p hp
      have := hket p hp
      simpa using this
    simp [hk2]

/-- C9 witness: after killing the process on port 8080, an immediate
second invocation for the same port returns `NotKilled`. -/
theorem killed_then_not_killed_witness :
    (resolve_and_kill (resolve_and_kill sys8080 8080 false).after 8080
        false).outcome = KillResult.NotKilled :=
  killed_then_not_killed sys8080 8080 (by decide) (by decide)

/-- C6 witness: with ports `[80, 81, 82]`, the failure on port 81 is
printed to the error stream, the exit code is 1, and only port 80's
outcome line is printed — port 82 is never processed. -/
theorem driver_error_aborts_witness :
    (run_ports k_demo [80, 81, 82]).err_lines = ["permission denied"] ∧
    (run_ports k_demo [80, 81, 82]).exit_code = 1 ∧
    (run_ports k_demo [80, 81, 82]).out_lines = (run_ports k_demo [80]).out_lines :=
  driver_error_aborts k_demo [80] 81 [82] "permission denied"
    (by
      intro q hq
      simp only [List.mem_cons, List.not_mem_nil, or_false] at hq
      subst hq
      exact ⟨KillResult.Killed, rfl⟩)
    rfl

end Killport
